import Mathlib

/-!
Verification of the two snippets of this repository: the crawl-job
configuration literal (`payload`) and the field-extraction routine
(`extract_product_data`), shallowly embedded in Lean.
-/

/-- A JSON-like value, used to embed the Python dict literal `payload`. -/
inductive Json where
  | str : String → Json
  | num : Int → Json
  | arr : List Json → Json
  | obj : List (String × Json) → Json

/-- Field lookup on a JSON object; `none` on non-objects or missing keys. -/
def Json.getField : Json → String → Option Json
  | .obj fields, key => fields.lookup key
  | _, _ => none

/-- The keys of a JSON object, in order; `[]` on non-objects. -/
def Json.keys : Json → List String
  | .obj fields => fields.map Prod.fst
  | _ => []

/-- The job-configuration literal, embedded field for field from the source
file `punctuation_1_fixed.py`. -/
def payload : Json :=
  .obj [
    ("url", .str "https://www.amazon.com/"),
    ("filters", .obj [
      ("crawl", .arr [.str ".*"]),
      ("process", .arr [.str ".*"]),
      ("max_depth", .num 1)
    ]),
    ("scrape_params", .obj [
      ("user_agent_type", .str "desktop")
    ]),
    ("output", .obj [
      ("type_", .str "sitemap")
    ])
  ]

mutual

/-- A parsed HTML node: an element with a tag name, attributes and children,
or a text node. Embeds what BeautifulSoup produces from `response.content`. -/
inductive Html where
  | elem : String → List (String × String) → HtmlList → Html
  | txt : String → Html

/-- A sequence of sibling HTML nodes; a whole parsed document is one. -/
inductive HtmlList where
  | nil : HtmlList
  | cons : Html → HtmlList → HtmlList

end

/-- Builds an `HtmlList` from a Lean list, for readable document literals. -/
def HtmlList.ofList : List Html → HtmlList
  | [] => .nil
  | n :: rest => .cons n (HtmlList.ofList rest)

/-- Whether the attribute list `present` satisfies every wanted
key-value pair, as BeautifulSoup attribute filters do. -/
def attrsMatch (present wanted : List (String × String)) : Bool :=
  wanted.all fun kv => present.lookup kv.1 == some kv.2

mutual

/-- `soup.find(tag, attrs)` restricted to the subtree of one node: the node
itself if its tag equals `tag` and its attributes satisfy `wanted`, else
the first match among its children in document order. -/
def findTagNode (tag : String) (wanted : List (String × String)) :
    Html → Option Html
  | Html.txt _ => none
  | Html.elem t a cs =>
    if t == tag && attrsMatch a wanted then some (Html.elem t a cs)
    else findTag tag wanted cs

/-- `soup.find(tag, attrs)` from the source: the first element in document
order (pre-order: a node before its children, children before later
siblings) whose tag equals `tag` and whose attributes satisfy `wanted`. -/
def findTag (tag : String) (wanted : List (String × String)) :
    HtmlList → Option Html
  | HtmlList.nil => none
  | HtmlList.cons n rest =>
    match findTagNode tag wanted n with
    | some x => some x
    | none => findTag tag wanted rest

end

mutual

/-- Modelled from the spec: `soup.find(attrs)` with no tag restriction,
on the subtree of one node. The source never calls this; it is the reading
of the price lookup given by the spec, stated only to compare with
`findTagNode`. -/
def findAnyTagNode (wanted : List (String × String)) : Html → Option Html
  | Html.txt _ => none
  | Html.elem t a cs =>
    if attrsMatch a wanted then some (Html.elem t a cs)
    else findAnyTag wanted cs

/-- Modelled from the spec: the first element of ANY tag in document order
whose attributes satisfy `wanted`. The source never calls this; it is the
reading of the price lookup given by the spec, stated only to compare with
`findTag`. -/
def findAnyTag (wanted : List (String × String)) : HtmlList → Option Html
  | HtmlList.nil => none
  | HtmlList.cons n rest =>
    match findAnyTagNode wanted n with
    | some x => some x
    | none => findAnyTag wanted rest

end

mutual

/-- `.text` of a BeautifulSoup node: the concatenation of all text
descendants in document order. -/
def Html.text : Html → String
  | .txt s => s
  | .elem _ _ cs => textOfList cs

/-- `.text` summed over a sequence of sibling nodes. -/
def textOfList : HtmlList → String
  | .nil => ""
  | .cons c cs => c.text ++ textOfList cs

end

/-- The Python dict literal `{"title": title, "price": price}` appended to
`product_data`, embedded as an association list. -/
def mkRecord (title price : String) : List (String × String) :=
  [("title", title), ("price", price)]

/-- One outbound HTTP GET request: the URL and the header mapping passed to
`requests.get`. -/
structure HttpRequest where
  url : String
  headers : List (String × String)

/-- The body of one loop iteration of `extract_product_data`, applied to one
parsed response: find the first `h1`, find the first `span` with
`itemprop="price"`, and build the record from their `.text`; `none` when
either lookup fails (Python: `.text` on `None` raises). -/
def extractOne (doc : HtmlList) : Option (List (String × String)) :=
  match findTag "h1" [] doc with
  | none => none
  | some h =>
    match findTag "span" [("itemprop", "price")] doc with
    | none => none
    | some p => some (mkRecord h.text p.text)

/-- `extract_product_data` from `punctuation_4_fixed.py`. `fetch` models the
network: the parsed body that `requests.get` + BeautifulSoup yield for a
URL. Arguments: the remaining `product_urls` and the accumulator
`product_data`. Result: the final accumulator, the log of GET requests
issued (in order), and `true` iff the run completed without raising. A
failed element lookup stops the run at that URL (Python raises
`AttributeError` on `.text`), after the request for that URL was already
issued and with the accumulator as built so far. -/
def extract_product_data (fetch : String → HtmlList)
    (headers : List (String × String)) :
    List String → List (List (String × String)) →
      List (List (String × String)) × List HttpRequest × Bool
  | [], product_data => (product_data, [], true)
  | url :: rest, product_data =>
    let doc := fetch url
    match findTag "h1" [] doc with
    | none => (product_data, [⟨url, headers⟩], false)
    | some h =>
      match findTag "span" [("itemprop", "price")] doc with
      | none => (product_data, [⟨url, headers⟩], false)
      | some p =>
        let r := extract_product_data fetch headers rest
          (product_data ++ [mkRecord h.text p.text])
        (r.1, ⟨url, headers⟩ :: r.2.1, r.2.2)

/-- The parsed body `<h1>Widget</h1><span itemprop="price">$9.99</span>`. -/
def widgetDoc : HtmlList :=
  .ofList
    [Html.elem "h1" [] (.ofList [Html.txt "Widget"]),
     Html.elem "span" [("itemprop", "price")] (.ofList [Html.txt "$9.99"])]

/-- A parsed body in which the first price-attributed element in document
order is a `div`, not a `span`:
`<div itemprop="price">$5.00</div><h1>T</h1><span itemprop="price">$9.00</span>`. -/
def mixedDoc : HtmlList :=
  .ofList
    [Html.elem "div" [("itemprop", "price")] (.ofList [Html.txt "$5.00"]),
     Html.elem "h1" [] (.ofList [Html.txt "T"]),
     Html.elem "span" [("itemprop", "price")] (.ofList [Html.txt "$9.00"])]

/-- A parsed body whose first `h1` element exists but has empty text:
`<h1></h1><span itemprop="price">$0.00</span>`. -/
def emptyH1Doc : HtmlList :=
  .ofList
    [Html.elem "h1" [] .nil,
     Html.elem "span" [("itemprop", "price")] (.ofList [Html.txt "$0.00"])]

/-- A parsed body whose first price element exists but has empty text,
under a nonempty `h1`: `<h1>T</h1><span itemprop="price"></span>`. -/
def emptyPriceDoc : HtmlList :=
  .ofList
    [Html.elem "h1" [] (.ofList [Html.txt "T"]),
     Html.elem "span" [("itemprop", "price")] .nil]

/-- A mocked network serving two different pages, for the ordering test. -/
def twoPageFetch : String → HtmlList :=
  fun u => if u = "a" then widgetDoc else mixedDoc

/-- Whatever happens during the run — completion or an uncaught error — the
final accumulator is the initial one followed by the records this run
appended: running from `acc` equals running from `[]` with `acc` in front. -/
theorem extract_frame (fetch : String → HtmlList) (hd : List (String × String))
    (urls : List String) :
    ∀ acc : List (List (String × String)),
      (extract_product_data fetch hd urls acc).1
        = acc ++ (extract_product_data fetch hd urls []).1 := by
  induction urls with
  | nil => intro acc; simp [extract_product_data]
  | cons u rest ih =>
    intro acc
    cases hh : findTag "h1" [] (fetch u) with
    | none => simp [extract_product_data, hh]
    | some h =>
      cases hp : findTag "span" [("itemprop", "price")] (fetch u) with
      | none => simp [extract_product_data, hh, hp]
      | some p =>
        simp only [extract_product_data, hh, hp]
        rw [ih (acc ++ [mkRecord h.text p.text]), ih ([] ++ [mkRecord h.text p.text])]
        simp

/-- When every page yields both fields, the run completes: the accumulator
gains exactly the per-page records in input order and one GET request is
issued per URL, carrying the supplied headers. -/
theorem extract_complete (fetch : String → HtmlList) (hd : List (String × String))
    (urls : List String) :
    ∀ acc : List (List (String × String)),
      (∀ u ∈ urls, (extractOne (fetch u)).isSome = true) →
      extract_product_data fetch hd urls acc
        = (acc ++ urls.filterMap (fun u => extractOne (fetch u)),
           urls.map (fun u => HttpRequest.mk u hd), true) := by
  induction urls with
  | nil => intro acc _; simp [extract_product_data]
  | cons u rest ih =>
    intro acc hall
    have hu := hall u (by simp)
    cases hh : findTag "h1" [] (fetch u) with
    | none => simp [extractOne, hh] at hu
    | some h =>
      cases hp : findTag "span" [("itemprop", "price")] (fetch u) with
      | none => simp [extractOne, hh, hp] at hu
      | some p =>
        have hone : extractOne (fetch u) = some (mkRecord h.text p.text) := by
          simp [extractOne, hh, hp]
        simp only [extract_product_data, hh, hp]
        rw [ih (acc ++ [mkRecord h.text p.text]) (fun v hv => hall v (by simp [hv]))]
        simp [hone]

/-- Every record in the final accumulator was either there initially or is a
record built from a found heading and a found price element. -/
theorem mem_extract_cases (fetch : String → HtmlList) (hd : List (String × String))
    (urls : List String) :
    ∀ (acc : List (List (String × String))) (r : List (String × String)),
      r ∈ (extract_product_data fetch hd urls acc).1 →
      r ∈ acc ∨ ((r.lookup "title").isSome = true ∧ (r.lookup "price").isSome = true) := by
  induction urls with
  | nil =>
    intro acc r hr
    simp [extract_product_data] at hr
    exact Or.inl hr
  | cons u rest ih =>
    intro acc r hr
    cases hh : findTag "h1" [] (fetch u) with
    | none =>
      simp [extract_product_data, hh] at hr
      exact Or.inl hr
    | some h =>
      cases hp : findTag "span" [("itemprop", "price")] (fetch u) with
      | none =>
        simp [extract_product_data, hh, hp] at hr
        exact Or.inl hr
      | some p =>
        simp only [extract_product_data, hh, hp] at hr
        rcases ih (acc ++ [mkRecord h.text p.text]) r hr with hmem | hfields
        · rcases List.mem_append.1 hmem with hacc | hnew
          · exact Or.inl hacc
          · right
            have hrq : r = mkRecord h.text p.text := by simpa using hnew
            subst hrq
            exact ⟨rfl, rfl⟩
        · exact Or.inr hfields

/-- Claim C1, counterexample: the output section of the constructed payload
has NO field named `type`; the output-format string "sitemap" sits under the
key `type_` instead. -/
theorem payload_output_type_key_refuted :
    ((payload.getField "output").bind (fun o => o.getField "type")) = none
    ∧ ((payload.getField "output").bind (fun o => o.getField "type_"))
        = some (Json.str "sitemap") :=
  ⟨rfl, rfl⟩

/-- Claim C1 (amended): the payload serializes to a structure with exactly
the keys url, filters (crawl, process, max_depth), scrape_params
(user_agent_type) and output, whose output section carries its
output-format string "sitemap" under the field named `type_`. -/
theorem payload_shape_amended :
    payload.keys = ["url", "filters", "scrape_params", "output"]
    ∧ payload.getField "url" = some (Json.str "https://www.amazon.com/")
    ∧ (payload.getField "filters").map Json.keys
        = some ["crawl", "process", "max_depth"]
    ∧ ((payload.getField "filters").bind (fun o => o.getField "crawl"))
        = some (Json.arr [Json.str ".*"])
    ∧ ((payload.getField "filters").bind (fun o => o.getField "process"))
        = some (Json.arr [Json.str ".*"])
    ∧ ((payload.getField "filters").bind (fun o => o.getField "max_depth"))
        = some (Json.num 1)
    ∧ (payload.getField "scrape_params").map Json.keys
        = some ["user_agent_type"]
    ∧ ((payload.getField "scrape_params").bind (fun o => o.getField "user_agent_type"))
        = some (Json.str "desktop")
    ∧ (payload.getField "output").map Json.keys = some ["type_"]
    ∧ ((payload.getField "output").bind (fun o => o.getField "type_"))
        = some (Json.str "sitemap") :=
  ⟨rfl, rfl, rfl, rfl, rfl, rfl, rfl, rfl, rfl, rfl⟩

/-- Claim C2, counterexample: on a page whose first price-attributed element
in document order is a `div`, the routine takes the price from the later
`span` ("$9.00"), not from the first element of any tag ("$5.00"): the
extraction is restricted to `span` tags. -/
theorem price_any_tag_refuted :
    (extractOne mixedDoc).bind (List.lookup "price") = some "$9.00"
    ∧ Option.map Html.text (findAnyTag [("itemprop", "price")] mixedDoc)
        = some "$5.00"
    ∧ ¬ ((extractOne mixedDoc).bind (List.lookup "price")
          = Option.map Html.text (findAnyTag [("itemprop", "price")] mixedDoc)) := by
  refine ⟨rfl, rfl, ?_⟩
  decide

/-- Claim C2 (amended): whenever the extraction succeeds on a page, the
`price` field of the produced record is the text content of the first
element of tag `span` (not of any tag) carrying `itemprop="price"`. -/
theorem price_from_first_span (doc : HtmlList) (r : List (String × String))
    (h : extractOne doc = some r) :
    r.lookup "price"
      = Option.map Html.text (findTag "span" [("itemprop", "price")] doc) := by
  cases hh : findTag "h1" [] doc with
  | none => simp [extractOne, hh] at h
  | some hel =>
    cases hp : findTag "span" [("itemprop", "price")] doc with
    | none => simp [extractOne, hh, hp] at h
    | some p =>
      simp only [extractOne, hh, hp, Option.some.injEq] at h
      subst h
      rfl

/-- Witness for the amended C2, at the concrete page `mixedDoc`. -/
theorem price_from_first_span_witness :
    (mkRecord "T" "$9.00").lookup "price"
      = Option.map Html.text (findTag "span" [("itemprop", "price")] mixedDoc) :=
  price_from_first_span mixedDoc (mkRecord "T" "$9.00") rfl

/-- Claim C3: for the single URL "http://example.test/a" served the body
`<h1>Widget</h1><span itemprop="price">$9.99</span>`, the routine appends
exactly one record with title "Widget" and price "$9.99", completing
normally after exactly one request. -/
theorem single_url_appends_widget_record (fetch : String → HtmlList)
    (hd : List (String × String)) (acc : List (List (String × String)))
    (h : fetch "http://example.test/a" = widgetDoc) :
    extract_product_data fetch hd ["http://example.test/a"] acc
      = (acc ++ [mkRecord "Widget" "$9.99"],
         [HttpRequest.mk "http://example.test/a" hd], true) := by
  simp only [extract_product_data, h]
  rfl

/-- Witness for C3, with empty headers and an empty initial accumulator. -/
theorem single_url_appends_widget_record_witness :
    extract_product_data (fun _ => widgetDoc) [] ["http://example.test/a"] []
      = ([mkRecord "Widget" "$9.99"],
         [HttpRequest.mk "http://example.test/a" []], true) :=
  single_url_appends_widget_record (fun _ => widgetDoc) [] [] rfl

/-- Claim C4: when the page for a URL lacks an `h1` element or lacks a
`span` with `itemprop="price"`, the run raises at field access upon that
URL: the accumulator is left exactly as it was (no record, full or half
built, is appended), the request for that URL was already issued, and no
later URL is processed. -/
theorem missing_element_raises (fetch : String → HtmlList)
    (hd : List (String × String)) (url : String) (rest : List String)
    (acc : List (List (String × String)))
    (h : findTag "h1" [] (fetch url) = none
       ∨ findTag "span" [("itemprop", "price")] (fetch url) = none) :
    extract_product_data fetch hd (url :: rest) acc
      = (acc, [HttpRequest.mk url hd], false) := by
  rcases h with h1 | hsp
  · simp [extract_product_data, h1]
  · cases hh : findTag "h1" [] (fetch url) with
    | none => simp [extract_product_data, hh]
    | some h => simp [extract_product_data, hh, hsp]

/-- Witness for C4: an empty page has no `h1`, so the run raises with the
prior accumulator intact. -/
theorem missing_element_raises_witness :
    extract_product_data (fun _ => HtmlList.nil) [] ["u4"] [mkRecord "a" "b"]
      = ([mkRecord "a" "b"], [HttpRequest.mk "u4" []], false) :=
  missing_element_raises (fun _ => HtmlList.nil) [] "u4" []
    [mkRecord "a" "b"] (Or.inl rfl)

/-- Claim C5: every record the routine appends carries both a populated
`title` field and a populated `price` field; no record missing either field
is ever appended (records present before the call are exempt). -/
theorem appended_records_have_both_fields (fetch : String → HtmlList)
    (hd : List (String × String)) (urls : List String)
    (acc : List (List (String × String))) (r : List (String × String))
    (hr : r ∈ (extract_product_data fetch hd urls acc).1) :
    r ∈ acc ∨ ((r.lookup "title").isSome = true ∧ (r.lookup "price").isSome = true) :=
  mem_extract_cases fetch hd urls acc r hr

/-- Witness for C5, at a concrete one-URL run starting from an empty
accumulator. -/
theorem appended_records_have_both_fields_witness :
    mkRecord "Widget" "$9.99" ∈ (extract_product_data (fun _ => widgetDoc) [] ["w"] []).1
    ∧ (mkRecord "Widget" "$9.99" ∈ ([] : List (List (String × String)))
       ∨ (((mkRecord "Widget" "$9.99").lookup "title").isSome = true
          ∧ ((mkRecord "Widget" "$9.99").lookup "price").isSome = true)) :=
  ⟨by decide,
   appended_records_have_both_fields (fun _ => widgetDoc) [] ["w"] []
     (mkRecord "Widget" "$9.99") (by decide)⟩

/-- Claim C6: when every page yields both fields, the records are appended
after the prior contents in exactly the order of `product_urls`: the final
accumulator is the prior one followed by the per-URL records in input
order. -/
theorem records_in_input_order (fetch : String → HtmlList)
    (hd : List (String × String)) (urls : List String)
    (acc : List (List (String × String)))
    (hall : ∀ u ∈ urls, (extractOne (fetch u)).isSome = true) :
    (extract_product_data fetch hd urls acc).1
      = acc ++ urls.filterMap (fun u => extractOne (fetch u)) := by
  rw [extract_complete fetch hd urls acc hall]

/-- Witness for C6: two URLs served two different pages produce the two
records in input order after the prior contents. -/
theorem records_in_input_order_witness :
    (extract_product_data twoPageFetch [] ["a", "b"] [mkRecord "x" "y"]).1
      = [mkRecord "x" "y"]
          ++ ["a", "b"].filterMap (fun u => extractOne (twoPageFetch u)) :=
  records_in_input_order twoPageFetch [] ["a", "b"] [mkRecord "x" "y"] (by decide)

/-- Claim C7: on a run in which every iteration succeeds, the effects on the
outside world are exactly one GET request per URL of `product_urls`, in
order, each carrying the caller-supplied headers — `product_urls`, the
headers and everything else (modelled as values passed in and returned) are
not modified; the accumulator gains only the appended records. -/
theorem one_request_per_url_with_headers (fetch : String → HtmlList)
    (hd : List (String × String)) (urls : List String)
    (acc : List (List (String × String)))
    (hall : ∀ u ∈ urls, (extractOne (fetch u)).isSome = true) :
    (extract_product_data fetch hd urls acc).2.1
      = urls.map (fun u => HttpRequest.mk u hd) := by
  rw [extract_complete fetch hd urls acc hall]

/-- Witness for C7: two URLs with a nonempty header mapping yield exactly
two requests, in order, each carrying those headers. -/
theorem one_request_per_url_with_headers_witness :
    (extract_product_data (fun _ => widgetDoc) [("User-Agent", "x")] ["p", "q"] []).2.1
      = ["p", "q"].map (fun u => HttpRequest.mk u [("User-Agent", "x")]) :=
  one_request_per_url_with_headers (fun _ => widgetDoc) [("User-Agent", "x")]
    ["p", "q"] [] (by decide)

/-- Claim C8: running the routine twice over the same accumulator with the
same URLs and the same responses appends the run records twice — no
deduplication. -/
theorem second_run_appends_again (fetch : String → HtmlList)
    (hd : List (String × String)) (urls : List String)
    (acc : List (List (String × String))) :
    (extract_product_data fetch hd urls (extract_product_data fetch hd urls acc).1).1
      = acc ++ (extract_product_data fetch hd urls []).1
            ++ (extract_product_data fetch hd urls []).1 := by
  rw [extract_frame fetch hd urls ((extract_product_data fetch hd urls acc).1),
    extract_frame fetch hd urls acc, List.append_assoc]

/-- Claim C9: the routine only appends: on every run — raising partway or
not — the prior contents of the accumulator are intact and in place, a
prefix of the final contents. -/
theorem accumulator_only_appended (fetch : String → HtmlList)
    (hd : List (String × String)) (urls : List String)
    (acc : List (List (String × String))) :
    ∃ t, (extract_product_data fetch hd urls acc).1 = acc ++ t :=
  ⟨(extract_product_data fetch hd urls []).1, extract_frame fetch hd urls acc⟩

/-- Claim C10: when the first `h1` and the first matching price element are
both present but either has empty text content, the routine still appends a
record for that URL, carrying the two text contents — so the corresponding
field (`title` for an empty `h1`, `price` for an empty price element) is
the empty string: element emptiness is not treated as element absence. -/
theorem empty_text_still_appends (fetch : String → HtmlList)
    (hd : List (String × String)) (url : String)
    (acc : List (List (String × String))) (h p : Html)
    (hh : findTag "h1" [] (fetch url) = some h)
    (hp : findTag "span" [("itemprop", "price")] (fetch url) = some p)
    (hempty : h.text = "" ∨ p.text = "") :
    extract_product_data fetch hd [url] acc
      = (acc ++ [mkRecord h.text p.text], [HttpRequest.mk url hd], true)
    ∧ (mkRecord h.text p.text).lookup "title" = some h.text
    ∧ (mkRecord h.text p.text).lookup "price" = some p.text := by
  exact ⟨by simp [extract_product_data, hh, hp], rfl, rfl⟩

/-- Witness for C10, exercising both disjuncts: the page
`<h1></h1><span itemprop="price">$0.00</span>` yields the record with empty
title and price "$0.00", and the page
`<h1>T</h1><span itemprop="price"></span>` yields the record with title "T"
and empty price. -/
theorem empty_text_still_appends_witness :
    (extract_product_data (fun _ => emptyH1Doc) [] ["u10"] []
       = ([mkRecord "" "$0.00"], [HttpRequest.mk "u10" []], true))
    ∧ (extract_product_data (fun _ => emptyPriceDoc) [] ["v10"] []
       = ([mkRecord "T" ""], [HttpRequest.mk "v10" []], true)) :=
  ⟨(empty_text_still_appends (fun _ => emptyH1Doc) [] "u10" []
      (Html.elem "h1" [] HtmlList.nil)
      (Html.elem "span" [("itemprop", "price")] (HtmlList.ofList [Html.txt "$0.00"]))
      rfl rfl (Or.inl rfl)).1,
   (empty_text_still_appends (fun _ => emptyPriceDoc) [] "v10" []
      (Html.elem "h1" [] (HtmlList.ofList [Html.txt "T"]))
      (Html.elem "span" [("itemprop", "price")] HtmlList.nil)
      rfl rfl (Or.inr rfl)).1⟩
